import Mathlib

/-!
Shallow embedding of the `variance` Rust crate (`src/lib.rs`).

The crate defines three zero-sized marker types `Covariant<T>`,
`Contravariant<T>`, `Invariant<T>`, a sealed trait `Variance` implemented by
exactly those three, and a generic factory `variance<T: Variance>() -> T`
that forwards to `Default::default()`.  All definitions below are translated
from the source; the variance-inference lattice near the end is modelled from
the specification, since the inference rule lives in the Rust compiler, not in
this crate.
-/

namespace VarianceLib

/-- Embedding of `core::marker::PhantomData<α>`: a unit struct carrying only a
type parameter and no runtime data. -/
inductive PhantomData (α : Type) : Type
  | mk

/-- `pub struct Covariant<T: ?Sized> { marker: PhantomData<fn() -> T> }`. -/
structure Covariant (T : Type) : Type where
  marker : PhantomData (Unit → T)

/-- `pub struct Contravariant<T: ?Sized> { marker: PhantomData<fn(T)> }`. -/
structure Contravariant (T : Type) : Type where
  marker : PhantomData (T → Unit)

/-- `pub struct Invariant<T: ?Sized> { marker: (Covariant<T>, Contravariant<T>) }`. -/
structure Invariant (T : Type) : Type where
  marker : Covariant T × Contravariant T

/-- Embedding of Rust's `Default` trait. -/
class Default (α : Type) where
  default : α

/-- `PhantomData`'s `Default` impl in `core`: returns the unique value. -/
instance instDefaultPhantomData (α : Type) : Default (PhantomData α) :=
  ⟨PhantomData.mk⟩

/-- `core`'s `Default` impl for 2-tuples: defaults componentwise. -/
instance instDefaultProd (α β : Type) [Default α] [Default β] : Default (α × β) :=
  ⟨(Default.default, Default.default)⟩

/-- `impl<T: ?Sized> Default for Covariant<T>`: `Self { marker: Default::default() }`. -/
instance instDefaultCovariant (T : Type) : Default (Covariant T) :=
  ⟨⟨Default.default⟩⟩

/-- `impl<T: ?Sized> Default for Contravariant<T>`: `Self { marker: Default::default() }`. -/
instance instDefaultContravariant (T : Type) : Default (Contravariant T) :=
  ⟨⟨Default.default⟩⟩

/-- `impl<T: ?Sized> Default for Invariant<T>`: `Self { marker: Default::default() }`,
where the field default is the tuple default. -/
instance instDefaultInvariant (T : Type) : Default (Invariant T) :=
  ⟨⟨Default.default⟩⟩

/-- The sealed classification: `mod private { pub trait Sealed {} }` is
implemented for exactly `Covariant<T>`, `Contravariant<T>`, `Invariant<T>`
(lib.rs lines 140-142), and nothing outside the module can add an impl.
An inductive predicate with exactly those three introduction rules is the
shallow embedding of that closed set. -/
inductive IsSealed : Type → Prop
  | covariant (T : Type) : IsSealed (Covariant T)
  | contravariant (T : Type) : IsSealed (Contravariant T)
  | invariant (T : Type) : IsSealed (Invariant T)

/-- `pub trait Variance: Default + private::Sealed {}`. -/
class Variance (M : Type) extends Default M where
  sealed : IsSealed M

instance instVarianceCovariant (T : Type) : Variance (Covariant T) where
  toDefault := instDefaultCovariant T
  sealed := IsSealed.covariant T

instance instVarianceContravariant (T : Type) : Variance (Contravariant T) where
  toDefault := instDefaultContravariant T
  sealed := IsSealed.contravariant T

instance instVarianceInvariant (T : Type) : Variance (Invariant T) where
  toDefault := instDefaultInvariant T
  sealed := IsSealed.invariant T

/-- `pub fn variance<T: Variance>() -> T { Default::default() }`. -/
def variance (M : Type) [Variance M] : M :=
  Default.default

/-- `core`'s `PartialEq` impl for `PhantomData`: always `true`. -/
def PhantomData.eq {α : Type} : PhantomData α → PhantomData α → Bool :=
  fun _ _ => true

/-- `core`'s `Ord` impl for `PhantomData`: always `Ordering::Equal`. -/
def PhantomData.cmp {α : Type} : PhantomData α → PhantomData α → Ordering :=
  fun _ _ => Ordering.eq

/-- `core`'s `Hash` impl for `PhantomData`: writes nothing to the hasher
(the hasher state is modelled as a `Nat`). -/
def PhantomData.hash {α : Type} : PhantomData α → Nat → Nat :=
  fun _ s => s

/-- `core`'s `Clone` impl for `PhantomData`: returns the unit value. -/
def PhantomData.clone {α : Type} : PhantomData α → PhantomData α :=
  fun _ => PhantomData.mk

/-- `core`'s derived tuple `PartialEq`: componentwise conjunction. -/
def pairEq {α β : Type} (ea : α → α → Bool) (eb : β → β → Bool)
    (x y : α × β) : Bool :=
  ea x.1 y.1 && eb x.2 y.2

/-- `core`'s tuple `Ord`: lexicographic. -/
def pairCmp {α β : Type} (ca : α → α → Ordering) (cb : β → β → Ordering)
    (x y : α × β) : Ordering :=
  (ca x.1 y.1).then (cb x.2 y.2)

/-- `core`'s tuple `Hash`: hash the first component, then the second. -/
def pairHash {α β : Type} (ha : α → Nat → Nat) (hb : β → Nat → Nat)
    (x : α × β) (s : Nat) : Nat :=
  hb x.2 (ha x.1 s)

/-- `core`'s tuple `Clone`: clone componentwise. -/
def pairClone {α β : Type} (ca : α → α) (cb : β → β) (x : α × β) : α × β :=
  (ca x.1, cb x.2)

/-- `#[derive(PartialEq)]` on `Covariant`: compares the `marker` field. -/
def Covariant.eq {T : Type} (x y : Covariant T) : Bool :=
  PhantomData.eq x.marker y.marker

/-- `#[derive(Ord)]` on `Covariant`: compares the `marker` field. -/
def Covariant.cmp {T : Type} (x y : Covariant T) : Ordering :=
  PhantomData.cmp x.marker y.marker

/-- `#[derive(Hash)]` on `Covariant`: hashes the `marker` field. -/
def Covariant.hash {T : Type} (x : Covariant T) (s : Nat) : Nat :=
  PhantomData.hash x.marker s

/-- `#[derive(Clone)]` on `Covariant`: clones the `marker` field. -/
def Covariant.clone {T : Type} (x : Covariant T) : Covariant T :=
  ⟨PhantomData.clone x.marker⟩

/-- `Covariant` is `Copy`: a by-value copy is a bitwise duplicate of the value. -/
def Covariant.copy {T : Type} (x : Covariant T) : Covariant T :=
  x

/-- `#[derive(PartialEq)]` on `Contravariant`. -/
def Contravariant.eq {T : Type} (x y : Contravariant T) : Bool :=
  PhantomData.eq x.marker y.marker

/-- `#[derive(Ord)]` on `Contravariant`. -/
def Contravariant.cmp {T : Type} (x y : Contravariant T) : Ordering :=
  PhantomData.cmp x.marker y.marker

/-- `#[derive(Hash)]` on `Contravariant`. -/
def Contravariant.hash {T : Type} (x : Contravariant T) (s : Nat) : Nat :=
  PhantomData.hash x.marker s

/-- `#[derive(Clone)]` on `Contravariant`. -/
def Contravariant.clone {T : Type} (x : Contravariant T) : Contravariant T :=
  ⟨PhantomData.clone x.marker⟩

/-- `Contravariant` is `Copy`. -/
def Contravariant.copy {T : Type} (x : Contravariant T) : Contravariant T :=
  x

/-- `#[derive(PartialEq)]` on `Invariant`: compares the tuple field. -/
def Invariant.eq {T : Type} (x y : Invariant T) : Bool :=
  pairEq Covariant.eq Contravariant.eq x.marker y.marker

/-- `#[derive(Ord)]` on `Invariant`: compares the tuple field. -/
def Invariant.cmp {T : Type} (x y : Invariant T) : Ordering :=
  pairCmp Covariant.cmp Contravariant.cmp x.marker y.marker

/-- `#[derive(Hash)]` on `Invariant`: hashes the tuple field. -/
def Invariant.hash {T : Type} (x : Invariant T) (s : Nat) : Nat :=
  pairHash Covariant.hash Contravariant.hash x.marker s

/-- `#[derive(Clone)]` on `Invariant`: clones the tuple field. -/
def Invariant.clone {T : Type} (x : Invariant T) : Invariant T :=
  ⟨pairClone Covariant.clone Contravariant.clone x.marker⟩

/-- `Invariant` is `Copy`. -/
def Invariant.copy {T : Type} (x : Invariant T) : Invariant T :=
  x

/-- Building an `Invariant<T>` from its two components (the struct literal
`Invariant { marker: (c, v) }`). -/
def Invariant.compose {T : Type} (p : Covariant T × Contravariant T) : Invariant T :=
  ⟨p⟩

/-- Decomposing an `Invariant<T>` into its two components (the field access
`x.marker`). -/
def Invariant.decompose {T : Type} (x : Invariant T) : Covariant T × Contravariant T :=
  x.marker

/-- Modelled from the spec: the four variance modes of the host compiler's
inference ("covariant, contravariant, or invariant", plus the bivariant mode
of an unused parameter). The inference rule itself lives in the compiler, not
in this crate. -/
inductive VarianceMode : Type
  | bivariant
  | covariant
  | contravariant
  | invariant

/-- Modelled from the spec: combining the variances implied by two uses of the
same type parameter. "If two uses of a type parameter imply differing
variances, the compiler will consider the generic type invariant with respect
to the parameter"; an unused (bivariant) position imposes no constraint. -/
def VarianceMode.glb : VarianceMode → VarianceMode → VarianceMode
  | VarianceMode.bivariant, v => v
  | v, VarianceMode.bivariant => v
  | VarianceMode.covariant, VarianceMode.covariant => VarianceMode.covariant
  | VarianceMode.contravariant, VarianceMode.contravariant => VarianceMode.contravariant
  | _, _ => VarianceMode.invariant

/-- Modelled from the spec: a field of type `Covariant<T>` places `T` in
return position (`PhantomData<fn() -> T>`), so it contributes covariance. -/
def covariantFieldUse : VarianceMode :=
  VarianceMode.covariant

/-- Modelled from the spec: a field of type `Contravariant<T>` places `T` in
argument position (`PhantomData<fn(T)>`), so it contributes contravariance. -/
def contravariantFieldUse : VarianceMode :=
  VarianceMode.contravariant

/-- The contribution of a field of type `Invariant<T>`: since `Invariant<T>`
is structurally the pair of a `Covariant<T>` and a `Contravariant<T>`, its
contribution is the combination of both directions. -/
def invariantFieldUse : VarianceMode :=
  VarianceMode.glb covariantFieldUse contravariantFieldUse

/-- Modelled from the spec: the inferred variance of a container in one type
parameter is the combination of the contributions of all fields mentioning
that parameter (no field at all gives bivariance). -/
def containerVariance (uses : List VarianceMode) : VarianceMode :=
  uses.foldl VarianceMode.glb VarianceMode.bivariant

/-- Modelled from the spec: whether a container value whose parameter is `a`
may be supplied where the container with parameter `b` is expected, given the
container's inferred variance mode and the subtyping relation `sub` on
parameters. -/
def assignable {α : Type} (v : VarianceMode) (sub : α → α → Prop) (a b : α) : Prop :=
  match v with
  | VarianceMode.bivariant => True
  | VarianceMode.covariant => sub a b
  | VarianceMode.contravariant => sub b a
  | VarianceMode.invariant => a = b

/-- A two-point subtype universe used to exercise the assignability rules:
`cat` is a strict subtype of `animal`. -/
inductive Ty : Type
  | animal
  | cat

/-- The subtyping relation on `Ty`: reflexive, plus `cat <: animal`. -/
def subTy : Ty → Ty → Prop
  | Ty.animal, Ty.cat => False
  | _, _ => True

theorem phantomSub {α : Type} (x y : PhantomData α) : x = y := by
  cases x
  cases y
  rfl

theorem covariantSub {T : Type} (x y : Covariant T) : x = y := by
  rcases x with ⟨m⟩
  rcases y with ⟨n⟩
  rw [phantomSub m n]

theorem contravariantSub {T : Type} (x y : Contravariant T) : x = y := by
  rcases x with ⟨m⟩
  rcases y with ⟨n⟩
  rw [phantomSub m n]

theorem invariantSub {T : Type} (x y : Invariant T) : x = y := by
  rcases x with ⟨⟨a, b⟩⟩
  rcases y with ⟨⟨c, d⟩⟩
  rw [covariantSub a c, contravariantSub b d]

/-- Claim C1: for every `T`, the value `Invariant<T>` is exactly the
structural pair of a `Covariant<T>` and a `Contravariant<T>`, both
default-constructed; composing and decomposing round-trips in both
directions, so `Invariant<T>` has no content beyond this pairing. -/
theorem invariant_is_pair_roundtrip : ∀ T : Type,
    (Default.default : Invariant T)
      = Invariant.compose (Default.default, Default.default) ∧
    (∀ x : Invariant T, Invariant.compose (Invariant.decompose x) = x) ∧
    (∀ p : Covariant T × Contravariant T,
      Invariant.decompose (Invariant.compose p) = p) :=
  fun _ => ⟨rfl, fun _ => rfl, fun _ => rfl⟩

/-- Claim C2: for each of the three marker kinds and every `T`, the factory
`variance::<M>()` returns exactly the value produced by `M::default()`. -/
theorem variance_eq_default : ∀ T : Type,
    variance (Covariant T) = (Default.default : Covariant T) ∧
    variance (Contravariant T) = (Default.default : Contravariant T) ∧
    variance (Invariant T) = (Default.default : Invariant T) :=
  fun _ => ⟨rfl, rfl, rfl⟩

/-- Claim C3: the sealed `Variance` capability is satisfied by exactly the
three types `Covariant<T>`, `Contravariant<T>`, `Invariant<T>` for every `T`,
and by no type outside this closed set. -/
theorem variance_capability_closed : ∀ M : Type,
    IsSealed M ↔
      (∃ T, M = Covariant T) ∨ (∃ T, M = Contravariant T) ∨
      (∃ T, M = Invariant T) := by
  intro M
  constructor
  · intro h
    cases h with
    | covariant T => exact Or.inl ⟨T, rfl⟩
    | contravariant T => exact Or.inr (Or.inl ⟨T, rfl⟩)
    | invariant T => exact Or.inr (Or.inr ⟨T, rfl⟩)
  · intro h
    rcases h with ⟨T, hT⟩ | ⟨T, hT⟩ | ⟨T, hT⟩
    · rw [hT]
      exact IsSealed.covariant T
    · rw [hT]
      exact IsSealed.contravariant T
    · rw [hT]
      exact IsSealed.invariant T

/-- Claim C4: for every `T`, each marker kind is constructible with no
runtime input (its default is the bare constructor value), and any two
instances of the same specialization compare equal under equality, ordering,
and hashing. -/
theorem markers_trivially_equal : ∀ T : Type,
    (Default.default : Covariant T) = Covariant.mk PhantomData.mk ∧
    (Default.default : Contravariant T) = Contravariant.mk PhantomData.mk ∧
    (Default.default : Invariant T)
      = Invariant.mk (Covariant.mk PhantomData.mk, Contravariant.mk PhantomData.mk) ∧
    (∀ x y : Covariant T,
      Covariant.eq x y = true ∧ Covariant.cmp x y = Ordering.eq ∧
      ∀ s : Nat, Covariant.hash x s = Covariant.hash y s) ∧
    (∀ x y : Contravariant T,
      Contravariant.eq x y = true ∧ Contravariant.cmp x y = Ordering.eq ∧
      ∀ s : Nat, Contravariant.hash x s = Contravariant.hash y s) ∧
    (∀ x y : Invariant T,
      Invariant.eq x y = true ∧ Invariant.cmp x y = Ordering.eq ∧
      ∀ s : Nat, Invariant.hash x s = Invariant.hash y s) :=
  fun _ =>
    ⟨rfl, rfl, rfl,
     fun _ _ => ⟨rfl, rfl, fun _ => rfl⟩,
     fun _ _ => ⟨rfl, rfl, fun _ => rfl⟩,
     fun _ _ => ⟨rfl, rfl, fun _ => rfl⟩⟩

/-- Claim C5: for every `T` (including an uninhabited one), each marker type
has exactly one value: it carries no data at all, in particular no value of
`T`, and constructing it requires no instance of `T`. -/
theorem markers_zero_sized : ∀ T : Type,
    (∃ x : Covariant T, ∀ y : Covariant T, y = x) ∧
    (∃ x : Contravariant T, ∀ y : Contravariant T, y = x) ∧
    (∃ x : Invariant T, ∀ y : Invariant T, y = x) :=
  fun _ =>
    ⟨⟨Default.default, fun y => covariantSub y Default.default⟩,
     ⟨Default.default, fun y => contravariantSub y Default.default⟩,
     ⟨Default.default, fun y => invariantSub y Default.default⟩⟩

/-- Claim C6: every operation of the library (the three default constructors
and the generic factory) is total and infallible: for every `T` it evaluates
to an explicit constructor value, with no error path encoded anywhere. -/
theorem operations_total : ∀ T : Type,
    (Default.default : Covariant T) = Covariant.mk PhantomData.mk ∧
    (Default.default : Contravariant T) = Contravariant.mk PhantomData.mk ∧
    (Default.default : Invariant T)
      = Invariant.mk (Covariant.mk PhantomData.mk, Contravariant.mk PhantomData.mk) ∧
    variance (Covariant T) = Covariant.mk PhantomData.mk ∧
    variance (Contravariant T) = Contravariant.mk PhantomData.mk ∧
    variance (Invariant T)
      = Invariant.mk (Covariant.mk PhantomData.mk, Contravariant.mk PhantomData.mk) :=
  fun _ => ⟨rfl, rfl, rfl, rfl, rfl, rfl⟩

/-- Claim C7: a container with one field `Covariant<Arg>` and one field
`Contravariant<Ret>` is inferred covariant in `Arg` and contravariant in
`Ret`; substituting a more specific `Arg` or a less specific `Ret` preserves
assignability, while the reverse substitutions are rejected. -/
theorem func_container_variance :
    containerVariance [covariantFieldUse] = VarianceMode.covariant ∧
    containerVariance [contravariantFieldUse] = VarianceMode.contravariant ∧
    assignable VarianceMode.covariant subTy Ty.cat Ty.animal ∧
    ¬ assignable VarianceMode.covariant subTy Ty.animal Ty.cat ∧
    assignable VarianceMode.contravariant subTy Ty.animal Ty.cat ∧
    ¬ assignable VarianceMode.contravariant subTy Ty.cat Ty.animal :=
  ⟨rfl, rfl, trivial, fun h => h, trivial, fun h => h⟩

/-- Claim C8: a container with a covariance-implying field and a separate
`Contravariant<T>` field collapses to invariance in `T` (exactly the
combination embodied by `Invariant<T>`), and then neither the covariant nor
the contravariant substitution is accepted. -/
theorem conflicting_variance_collapses :
    containerVariance [covariantFieldUse, contravariantFieldUse]
      = VarianceMode.invariant ∧
    invariantFieldUse = VarianceMode.invariant ∧
    ¬ assignable VarianceMode.invariant subTy Ty.cat Ty.animal ∧
    ¬ assignable VarianceMode.invariant subTy Ty.animal Ty.cat :=
  ⟨rfl, rfl, fun h => Ty.noConfusion h, fun h => Ty.noConfusion h⟩

/-- Claim C9: the factory `variance::<M>()` is deterministic: any two values
it returns for the same kind `M` are equal (for every `T` and each of the
three kinds). -/
theorem variance_deterministic : ∀ T : Type,
    (∀ x y : Covariant T,
      x = variance (Covariant T) → y = variance (Covariant T) → x = y) ∧
    (∀ x y : Contravariant T,
      x = variance (Contravariant T) → y = variance (Contravariant T) → x = y) ∧
    (∀ x y : Invariant T,
      x = variance (Invariant T) → y = variance (Invariant T) → x = y) :=
  fun _ =>
    ⟨fun _ _ hx hy => hx.trans hy.symm,
     fun _ _ hx hy => hx.trans hy.symm,
     fun _ _ hx hy => hx.trans hy.symm⟩

/-- Witness for claim C9 at `T = Nat`: two invocations of the factory for
`Covariant<Nat>` yield equal values. -/
theorem variance_deterministic_witness :
    variance (Covariant Nat) = variance (Covariant Nat) :=
  (variance_deterministic Nat).1
    (variance (Covariant Nat)) (variance (Covariant Nat)) rfl rfl

/-- Claim C10: cloning or copying is the identity on every marker value, for
every `T` and each of the three kinds. -/
theorem clone_identity : ∀ T : Type,
    (∀ x : Covariant T, Covariant.clone x = x ∧ Covariant.copy x = x) ∧
    (∀ x : Contravariant T, Contravariant.clone x = x ∧ Contravariant.copy x = x) ∧
    (∀ x : Invariant T, Invariant.clone x = x ∧ Invariant.copy x = x) :=
  fun _ =>
    ⟨fun x => ⟨covariantSub (Covariant.clone x) x, rfl⟩,
     fun x => ⟨contravariantSub (Contravariant.clone x) x, rfl⟩,
     fun x => ⟨invariantSub (Invariant.clone x) x, rfl⟩⟩

end VarianceLib
